import Mathlib

/-!
Verification of the rubberband command-line driver
(`src/libs/rubberband/src/main.cpp`).

The development shallowly embeds the driver's `main` function: its
option-processing loop (the `getopt_long` switch, lines 100-123), the
crispness switch (lines 181-189), the stretcher-option word it assembles
(lines 237-267), the pitch-to-frequency conversion (lines 269-271), the
exit-code structure (lines 126-179, 213-232, 472), the study and process
loops (lines 295-334 and 341-407), the drain loop (lines 412-446), the
sample clamping performed before writing (lines 371-378 and 428-435), and
the end-of-run duration diagnostic (line 453).

Numeric command-line values (read by `atof`/`atoi`) are embedded as
rationals and integers.  The `RubberBandStretcher` engine itself is not
part of the visible sources; where a property depends on the engine its
behaviour is modelled from the specification and the definition says so
in its doc comment.
-/

namespace RubberBand

/-- Transient handling modes, from the anonymous enum in `main` (lines 58-62). -/
inductive TransientMode
  | NoTransients
  | BandLimitedTransients
  | Transients
deriving DecidableEq, Repr

/-- The local state of `main` that the option loop mutates (lines 41-66).
`ratio` is the time ratio, `pitchshift` the semitone value (initially 1.0 in
the source), `frequencyshift` the frequency ratio, `threading` the 0/1/2
selector of the threading switch, `crispness` the `-c` value (initially -1). -/
structure DriverState where
  ratio : ℚ
  pitchshift : ℚ
  frequencyshift : ℚ
  debug : ℤ
  realtime : Bool
  precise : Bool
  threading : ℕ
  peaklock : Bool
  longwin : Bool
  shortwin : Bool
  softening : Bool
  crispness : ℤ
  help : Bool
  quiet : Bool
  haveRatio : Bool
  transients : TransientMode
  fthresh0 : ℚ
  fthresh1 : ℚ
  fthresh2 : ℚ
deriving DecidableEq, Repr

/-- Initial values of the locals of `main` (lines 41-66). -/
def initState : DriverState :=
  { ratio := 1
    pitchshift := 1
    frequencyshift := 1
    debug := 0
    realtime := false
    precise := false
    threading := 0
    peaklock := true
    longwin := false
    shortwin := false
    softening := true
    crispness := -1
    help := false
    quiet := false
    haveRatio := false
    transients := TransientMode.Transients
    fthresh0 := -1
    fthresh1 := -1
    fthresh2 := -1 }

/-- One command-line option as delivered by `getopt_long` (the `longOpts`
table, lines 71-95; numeric arguments already converted as by `atof`/`atoi`).
`unknown` stands for any unrecognised option (the `default:` case). -/
inductive Opt
  | help
  | time (x : ℚ)
  | tempo (x : ℚ)
  | pitch (x : ℚ)
  | frequency (x : ℚ)
  | debug (n : ℤ)
  | realtime
  | precise
  | noThreads
  | threads
  | noTransients
  | noPeaklock
  | windowLong
  | windowShort
  | thresh0 (f : ℚ)
  | thresh1 (f : ℚ)
  | thresh2 (f : ℚ)
  | blTransients
  | noSoftening
  | crispness (n : ℤ)
  | quiet
  | unknown
deriving DecidableEq, Repr

/-- One iteration of the option-processing `switch` (lines 100-123). -/
def applyOpt (s : DriverState) (o : Opt) : DriverState :=
  match o with
  | Opt.help => { s with help := true }
  | Opt.time x => { s with ratio := s.ratio * x, haveRatio := true }
  | Opt.tempo x =>
      { s with ratio := if x ≠ 0 then s.ratio / x else s.ratio, haveRatio := true }
  | Opt.pitch x => { s with pitchshift := x, haveRatio := true }
  | Opt.frequency x => { s with frequencyshift := x, haveRatio := true }
  | Opt.debug n => { s with debug := n }
  | Opt.realtime => { s with realtime := true }
  | Opt.precise => { s with precise := true }
  | Opt.noThreads => { s with threading := 1 }
  | Opt.threads => { s with threading := 2 }
  | Opt.noTransients => { s with transients := TransientMode.NoTransients }
  | Opt.noPeaklock => { s with peaklock := false }
  | Opt.windowLong => { s with longwin := true }
  | Opt.windowShort => { s with shortwin := true }
  | Opt.thresh0 f => { s with fthresh0 := f }
  | Opt.thresh1 f => { s with fthresh1 := f }
  | Opt.thresh2 f => { s with fthresh2 := f }
  | Opt.blTransients => { s with transients := TransientMode.BandLimitedTransients }
  | Opt.noSoftening => { s with softening := false }
  | Opt.crispness n => { s with crispness := n }
  | Opt.quiet => { s with quiet := true }
  | Opt.unknown => { s with help := true }

/-- The whole option loop (lines 68-124): options are applied in command-line
order starting from the initial state. -/
def parseOpts (opts : List Opt) : DriverState :=
  opts.foldl applyOpt initState

/-- The crispness `switch` run after option processing (lines 181-189). -/
def applyCrispness (s : DriverState) : DriverState :=
  if s.crispness = -1 then { s with crispness := 4 }
  else if s.crispness = 0 then
    { s with transients := TransientMode.NoTransients, peaklock := false,
             longwin := true, shortwin := false }
  else if s.crispness = 1 then
    { s with transients := TransientMode.NoTransients, peaklock := false,
             longwin := false, shortwin := false }
  else if s.crispness = 2 then
    { s with transients := TransientMode.NoTransients, peaklock := true,
             longwin := false, shortwin := false }
  else if s.crispness = 3 then
    { s with transients := TransientMode.BandLimitedTransients, peaklock := true,
             longwin := false, shortwin := false }
  else if s.crispness = 4 then
    { s with transients := TransientMode.Transients, peaklock := true,
             longwin := false, shortwin := false }
  else if s.crispness = 5 then
    { s with transients := TransientMode.Transients, peaklock := false,
             longwin := false, shortwin := true }
  else s

/-- Threading component of the stretcher option word (lines 245-255). -/
inductive ThreadingMode
  | Auto
  | Never
  | Always
deriving DecidableEq, Repr

/-- Transient component of the stretcher option word (lines 257-267). -/
inductive TransientOption
  | Smooth
  | Mixed
  | Crisp
deriving DecidableEq, Repr

/-- The stretcher option word assembled by the driver (lines 237-267),
represented with one field per option group instead of OR-ed bits. -/
structure StretcherOptions where
  processRealTime : Bool
  stretchPrecise : Bool
  phaseIndependent : Bool
  phasePeakLocked : Bool
  windowLong : Bool
  windowShort : Bool
  threading : ThreadingMode
  transientOpt : TransientOption
deriving DecidableEq, Repr

/-- Assembly of the option word from the driver state (lines 237-267). -/
def buildOptions (s : DriverState) : StretcherOptions :=
  { processRealTime := s.realtime
    stretchPrecise := s.precise
    phaseIndependent := !s.peaklock
    phasePeakLocked := !s.softening
    windowLong := s.longwin
    windowShort := s.shortwin
    threading :=
      if s.threading = 0 then ThreadingMode.Auto
      else if s.threading = 1 then ThreadingMode.Never
      else ThreadingMode.Always
    transientOpt :=
      match s.transients with
      | TransientMode.NoTransients => TransientOption.Smooth
      | TransientMode.BandLimitedTransients => TransientOption.Mixed
      | TransientMode.Transients => TransientOption.Crisp }

/-- Window size as named by the spec's section-6 table. -/
inductive Window
  | short
  | standard
  | long
deriving DecidableEq, Repr

/-- The three configuration columns of the spec's section-6 crispness table. -/
structure Config where
  transientMode : TransientMode
  peakLock : Bool
  window : Window
deriving DecidableEq, Repr

/-- The configuration the driver state denotes: its transient mode, its
peak-lock flag, and the window selected by the `longwin`/`shortwin` flags. -/
def configOf (s : DriverState) : Config :=
  { transientMode := s.transients
    peakLock := s.peaklock
    window :=
      if s.longwin then Window.long
      else if s.shortwin then Window.short
      else Window.standard }

/-- The crispness table, stated from the words of section 6 of the spec:
row N lists transient mode, peak-lock and window for crispness N. -/
def specCrispTable (n : ℤ) : Config :=
  if n = 0 then ⟨TransientMode.NoTransients, false, Window.long⟩
  else if n = 1 then ⟨TransientMode.NoTransients, false, Window.standard⟩
  else if n = 2 then ⟨TransientMode.NoTransients, true, Window.standard⟩
  else if n = 3 then ⟨TransientMode.BandLimitedTransients, true, Window.standard⟩
  else if n = 4 then ⟨TransientMode.Transients, true, Window.standard⟩
  else ⟨TransientMode.Transients, false, Window.short⟩

/-- Modelled from the spec (section 4.1): the `RubberBandStretcher` engine,
whose sources are not among the visible files, "implicitly forces
precision-mode on and threading off" in real-time mode.  This gives the
threading mode effectively in force for a given option word. -/
def engineEffectiveThreading (o : StretcherOptions) : ThreadingMode :=
  if o.processRealTime then ThreadingMode.Never else o.threading

/-- Modelled from the spec (section 4.1): the precision flag effectively in
force inside the engine — real-time mode implies precision on. -/
def engineEffectivePrecise (o : StretcherOptions) : Bool :=
  o.processRealTime || o.stretchPrecise

/-- The frequency ratio passed to the `RubberBandStretcher` constructor
(lines 269-271 and 281-282): when `pitchshift` differs from 1.0 the driver
multiplies `frequencyshift` by `pow(2.0, pitchshift / 12)` first. -/
noncomputable def stretcherFrequencyRatio (s : DriverState) : ℝ :=
  if s.pitchshift ≠ 1 then
    (s.frequencyshift : ℝ) * (2 : ℝ) ^ ((s.pitchshift : ℝ) / 12)
  else (s.frequencyshift : ℝ)

/-- Exit-code structure of `main`: usage exit (line 126 and 178), input-file
open failure (lines 213-218), output-file open failure (lines 227-232), and
the final `return 0` (line 472).  `npos` is the number of positional
arguments (`argc - optind`); `inOpens`/`outOpens` tell whether `sf_open`
succeeds on the input and output files. -/
def mainExit (opts : List Opt) (npos : ℕ) (inOpens outOpens : Bool) : ℕ :=
  let s := parseOpts opts
  if s.help = true ∨ s.haveRatio = false ∨ npos ≠ 2 then 2
  else if inOpens = false then 1
  else if outOpens = false then 1
  else 0

/-- The fixed input block size `ibs` of the driver (line 234). -/
def ibs : ℕ := 1024

/-- A stretcher call made by the driver's loops: a `study` or a `process`
call, with its frame count and `final` flag. -/
inductive Event
  | study (count : ℕ) (final : Bool)
  | process (count : ℕ) (final : Bool)
deriving DecidableEq, Repr

/-- Whether an event is a `study` call. -/
def Event.isStudy : Event → Bool
  | Event.study _ _ => true
  | Event.process _ _ => false

/-- The `final` flag of an event. -/
def Event.finalFlag : Event → Bool
  | Event.study _ f => f
  | Event.process _ f => f

/-- The frame count of an event. -/
def Event.frameCount : Event → ℕ
  | Event.study c _ => c
  | Event.process c _ => c

/-- Total frames fed by a list of events. -/
def sumCounts (l : List Event) : ℕ :=
  (l.map Event.frameCount).sum

/-- The study loop (lines 295-334): while `frame < F` it reads a block,
calls `study` on it with `final = (frame + ibs >= F)`, and advances `frame`
by `ibs`.  The sound-file read is modelled as ideal: with `F` frames in the
file it delivers `min ibs (F - frame)` frames. -/
def studyPass (F frame : ℕ) : List Event :=
  if _h : frame < F then
    Event.study (min ibs (F - frame)) (decide (F ≤ frame + ibs)) ::
      studyPass F (frame + ibs)
  else []
termination_by F - frame
decreasing_by simp only [ibs]; omega

/-- The processing loop (lines 341-407), projected to its `process` calls:
the block structure and `final` flag are computed exactly as in the study
loop. -/
def processPass (F frame : ℕ) : List Event :=
  if _h : frame < F then
    Event.process (min ibs (F - frame)) (decide (F ≤ frame + ibs)) ::
      processPass F (frame + ibs)
  else []
termination_by F - frame
decreasing_by simp only [ibs]; omega

/-- The sequence of stretcher calls `main` makes for an `F`-frame input:
the study loop runs only when `realtime` is false (line 295), then the
processing loop runs (line 341). -/
def driverTrace (realtime : Bool) (F : ℕ) : List Event :=
  (if realtime then [] else studyPass F 0) ++ processPass F 0

/-- One step of the drain loop (lines 412-446): a `retrieve` of the
available frames, or a `usleep` when nothing is available yet. -/
inductive DrainStep
  | retrieveStep (n : ℕ)
  | sleepStep
deriving DecidableEq, Repr

/-- The drain loop (lines 412-446) run against a sequence `a` of values
returned by successive `available()` polls: while the value is non-negative
it retrieves (when positive) or sleeps (when zero) and polls again; it
exits on a negative value.  `fuel` bounds the number of iterations modelled
so the definition is total; the termination theorem shows the loop exits
within the fuel once `a` turns negative. -/
def drainLoop (a : ℕ → ℤ) (k fuel : ℕ) : List DrainStep :=
  match fuel with
  | 0 => []
  | Nat.succ fuel =>
      if 0 ≤ a k then
        (if 0 < a k then DrainStep.retrieveStep (a k).toNat else DrainStep.sleepStep) ::
          drainLoop a (k + 1) fuel
      else []

/-- The per-sample clamping applied before writing (lines 373-375 and
430-432): first values above 1.0 are replaced by 1.0, then values below
-1.0 by -1.0. -/
def clampSample (v : ℚ) : ℚ :=
  let v1 := if 1 < v then 1 else v
  if v1 < -1 then -1 else v1

/-- The interleaved write buffer `fobf` built by both the processing loop
(lines 370-378) and the drain loop (lines 427-435): entry `i * channels + c`
is the clamped sample `i` of channel `c` of the retrieved block `obf`
(so entry `j` comes from channel `j % channels`, sample `j / channels`). -/
def writeBuffer (channels avail : ℕ) (obf : ℕ → ℕ → ℚ) : List ℚ :=
  (List.range (channels * avail)).map
    (fun j => clampSample (obf (j % channels) (j / channels)))

/-- The ideal output frame count of the end-of-run diagnostic (line 453):
`lrint(countIn * ratio)`. -/
def idealOutput (countIn : ℕ) (ratio : ℚ) : ℤ :=
  round ((countIn : ℚ) * ratio)

/-- The error of the end-of-run diagnostic (line 453):
`abs(lrint(countIn * ratio) - int(countOut))`. -/
def durationError (countIn : ℕ) (ratio : ℚ) (countOut : ℕ) : ℤ :=
  |idealOutput countIn ratio - (countOut : ℤ)|

/-- Modelled from the spec (section 8, duration law): in offline mode the
engine's total retrieved frame count approximates `countIn * ratio` within
a bounded tolerance `tol`.  The engine producing `countOut` is not among
the visible sources. -/
def DurationLaw (countIn : ℕ) (ratio : ℚ) (countOut : ℕ) (tol : ℚ) : Prop :=
  |(countOut : ℚ) - (countIn : ℚ) * ratio| ≤ tol

/-- Processing one more option at the end of the command line applies it to
the state reached so far. -/
theorem parseOpts_concat (L : List Opt) (o : Opt) :
    parseOpts (L ++ [o]) = applyOpt (parseOpts L) o := by
  simp [parseOpts, List.foldl_concat]

/-- Only the crispness option writes the `crispness` field. -/
theorem applyOpt_crispness_eq (s : DriverState) (o : Opt)
    (h : ∀ n, o ≠ Opt.crispness n) :
    (applyOpt s o).crispness = s.crispness := by
  cases o <;> first
    | rfl
    | exact absurd rfl (h _)

/-- A command line without any crispness option leaves the `crispness`
field of any start state untouched. -/
theorem foldl_crispness_eq (L : List Opt) (s : DriverState)
    (h : ∀ n, Opt.crispness n ∉ L) :
    (L.foldl applyOpt s).crispness = s.crispness := by
  induction L generalizing s with
  | nil => rfl
  | cons o L ih =>
      rw [List.foldl_cons, ih _ (fun n hn => h n (List.mem_cons_of_mem _ hn)),
        applyOpt_crispness_eq s o (fun n ho => h n (ho ▸ List.mem_cons_self o L))]

/-- Only `--no-threads` and `--threads` write the `threading` selector. -/
theorem applyOpt_threading_eq (s : DriverState) (o : Opt)
    (h0 : o ≠ Opt.noThreads) (h2 : o ≠ Opt.threads) :
    (applyOpt s o).threading = s.threading := by
  cases o <;> first
    | rfl
    | exact absurd rfl h0
    | exact absurd rfl h2

/-- A command line without `--no-threads` and `--threads` leaves the
`threading` selector untouched. -/
theorem foldl_threading_eq (L : List Opt) (s : DriverState)
    (h0 : Opt.noThreads ∉ L) (h2 : Opt.threads ∉ L) :
    (L.foldl applyOpt s).threading = s.threading := by
  induction L generalizing s with
  | nil => rfl
  | cons o L ih =>
      rw [List.foldl_cons,
        ih _ (fun hn => h0 (List.mem_cons_of_mem _ hn))
          (fun hn => h2 (List.mem_cons_of_mem _ hn)),
        applyOpt_threading_eq s o
          (fun ho => h0 (ho ▸ List.mem_cons_self o L))
          (fun ho => h2 (ho ▸ List.mem_cons_self o L))]

/-- Only `--precise` writes the `precise` flag. -/
theorem applyOpt_precise_eq (s : DriverState) (o : Opt) (h : o ≠ Opt.precise) :
    (applyOpt s o).precise = s.precise := by
  cases o <;> first
    | rfl
    | exact absurd rfl h

/-- A command line without `--precise` leaves the `precise` flag untouched. -/
theorem foldl_precise_eq (L : List Opt) (s : DriverState) (h : Opt.precise ∉ L) :
    (L.foldl applyOpt s).precise = s.precise := by
  induction L generalizing s with
  | nil => rfl
  | cons o L ih =>
      rw [List.foldl_cons, ih _ (fun hn => h (List.mem_cons_of_mem _ hn)),
        applyOpt_precise_eq s o (fun ho => h (ho ▸ List.mem_cons_self o L))]

/-- No option ever clears the `realtime` flag. -/
theorem applyOpt_realtime_mono (s : DriverState) (o : Opt)
    (h : s.realtime = true) : (applyOpt s o).realtime = true := by
  cases o <;> simp [applyOpt, h]

/-- Once set, the `realtime` flag survives the rest of the option loop. -/
theorem foldl_realtime_mono (L : List Opt) (s : DriverState)
    (h : s.realtime = true) : (L.foldl applyOpt s).realtime = true := by
  induction L generalizing s with
  | nil => exact h
  | cons o L ih => exact ih _ (applyOpt_realtime_mono s o h)

/-- A command line containing `--realtime` sets the `realtime` flag. -/
theorem foldl_realtime_mem (L : List Opt) (s : DriverState)
    (h : Opt.realtime ∈ L) : (L.foldl applyOpt s).realtime = true := by
  induction L generalizing s with
  | nil => cases h
  | cons o L ih =>
      rcases List.mem_cons.mp h with ho | hL
      · subst ho
        exact foldl_realtime_mono L _ rfl
      · exact ih _ hL

/-- The crispness switch does not touch the `realtime` flag. -/
theorem applyCrispness_realtime (s : DriverState) :
    (applyCrispness s).realtime = s.realtime := by
  unfold applyCrispness
  split_ifs <;> rfl

/-- The crispness switch does not touch the `threading` selector. -/
theorem applyCrispness_threading (s : DriverState) :
    (applyCrispness s).threading = s.threading := by
  unfold applyCrispness
  split_ifs <;> rfl

/-- The crispness switch does not touch the `precise` flag. -/
theorem applyCrispness_precise (s : DriverState) :
    (applyCrispness s).precise = s.precise := by
  unfold applyCrispness
  split_ifs <;> rfl

/-- C1: for every crispness level N in 0..5 given via `--crispness` (or
`--crisp`), after the crispness switch the driver's configuration (transient
mode, peak-lock, window) equals row N of the spec's section-6 table,
whatever other options were given; the default configuration equals row 4;
and when no crispness option is given the resulting level is 4. -/
theorem crispness_table_correct (L : List Opt) (n : ℤ) (h0 : 0 ≤ n) (h5 : n ≤ 5) :
    configOf (applyCrispness (parseOpts (L ++ [Opt.crispness n]))) = specCrispTable n ∧
    configOf (applyCrispness (parseOpts [])) = specCrispTable 4 ∧
    ((∀ m : ℤ, Opt.crispness m ∉ L) → (applyCrispness (parseOpts L)).crispness = 4) := by
  refine ⟨?_, by decide, ?_⟩
  · rw [parseOpts_concat]
    have hc : (applyOpt (parseOpts L) (Opt.crispness n)).crispness = n := rfl
    interval_cases n <;>
      simp [applyCrispness, hc, configOf, specCrispTable]
  · intro h
    have hd : (parseOpts L).crispness = -1 := foldl_crispness_eq L initState h
    simp [applyCrispness, hd]

/-- C1 witness: instantiates the table theorem at crispness 0 (on a command
line that also carries a time ratio) and the no-crispness default at
`--time 2`. -/
theorem crispness_table_correct_witness :
    configOf (applyCrispness (parseOpts ([Opt.time 2] ++ [Opt.crispness 0]))) =
        specCrispTable 0 ∧
    configOf (applyCrispness (parseOpts [])) = specCrispTable 4 ∧
    ((∀ m : ℤ, Opt.crispness m ∉ [Opt.time 2]) →
      (applyCrispness (parseOpts [Opt.time 2])).crispness = 4) :=
  crispness_table_correct [Opt.time 2] 0 (by norm_num) (by norm_num)

/-- C2 counterexample: on the command line `--realtime --time 2` the option
word the driver constructs has threading mode Auto and the precise bit off,
so it does not specify threading mode Never together with precision on. -/
theorem realtime_driver_options_cex :
    ¬ ((buildOptions (applyCrispness (parseOpts [Opt.realtime, Opt.time 2]))).threading
          = ThreadingMode.Never ∧
       (buildOptions (applyCrispness (parseOpts [Opt.realtime, Opt.time 2]))).stretchPrecise
          = true) := by
  decide

/-- C2 amended: if `--realtime` is given and none of `--no-threads`,
`--threads`, `--precise` is given, the option word the driver constructs has
the real-time bit set, threading mode Auto and the precise bit off; the
forcing of threading Never and precision on is the engine's real-time
behaviour (modelled from the spec), not encoded in the driver's word. -/
theorem realtime_engine_forcing (L : List Opt) (hR : Opt.realtime ∈ L)
    (hnt : Opt.noThreads ∉ L) (ht : Opt.threads ∉ L) (hp : Opt.precise ∉ L) :
    (buildOptions (applyCrispness (parseOpts L))).processRealTime = true ∧
    (buildOptions (applyCrispness (parseOpts L))).threading = ThreadingMode.Auto ∧
    (buildOptions (applyCrispness (parseOpts L))).stretchPrecise = false ∧
    engineEffectiveThreading (buildOptions (applyCrispness (parseOpts L)))
        = ThreadingMode.Never ∧
    engineEffectivePrecise (buildOptions (applyCrispness (parseOpts L))) = true := by
  have hrt : (applyCrispness (parseOpts L)).realtime = true := by
    rw [applyCrispness_realtime]
    exact foldl_realtime_mem L initState hR
  have hth : (applyCrispness (parseOpts L)).threading = 0 := by
    rw [applyCrispness_threading]
    exact foldl_threading_eq L initState hnt ht
  have hpr : (applyCrispness (parseOpts L)).precise = false := by
    rw [applyCrispness_precise]
    exact foldl_precise_eq L initState hp
  refine ⟨hrt, ?_, hpr, ?_, ?_⟩
  · simp [buildOptions, hth]
  · simp [engineEffectiveThreading, buildOptions, hrt]
  · simp [engineEffectivePrecise, buildOptions, hrt]

/-- C2 witness: the amended statement at the concrete command line
`--realtime --time 2`. -/
theorem realtime_engine_forcing_witness :
    (buildOptions (applyCrispness (parseOpts [Opt.realtime, Opt.time 2]))).processRealTime
        = true ∧
    (buildOptions (applyCrispness (parseOpts [Opt.realtime, Opt.time 2]))).threading
        = ThreadingMode.Auto ∧
    (buildOptions (applyCrispness (parseOpts [Opt.realtime, Opt.time 2]))).stretchPrecise
        = false ∧
    engineEffectiveThreading
        (buildOptions (applyCrispness (parseOpts [Opt.realtime, Opt.time 2])))
        = ThreadingMode.Never ∧
    engineEffectivePrecise
        (buildOptions (applyCrispness (parseOpts [Opt.realtime, Opt.time 2]))) = true :=
  realtime_engine_forcing [Opt.realtime, Opt.time 2]
    (by decide) (by decide) (by decide) (by decide)

/-- C4: the driver exits with code 2 when no ratio option was given or the
positional argument count differs from two; with code 1 when the input or
the output file fails to open; and with code 0 on successful completion. -/
theorem exit_codes (opts : List Opt) (npos : ℕ) (inOpens outOpens : Bool) :
    ((parseOpts opts).haveRatio = false ∨ npos ≠ 2 →
      mainExit opts npos inOpens outOpens = 2) ∧
    ((parseOpts opts).help = false → (parseOpts opts).haveRatio = true → npos = 2 →
      (inOpens = false ∨ outOpens = false) →
      mainExit opts npos inOpens outOpens = 1) ∧
    ((parseOpts opts).help = false → (parseOpts opts).haveRatio = true → npos = 2 →
      inOpens = true → outOpens = true →
      mainExit opts npos inOpens outOpens = 0) := by
  unfold mainExit
  refine ⟨fun h => ?_, fun h1 h2 h3 h4 => ?_, fun h1 h2 h3 h4 h5 => ?_⟩ <;>
    split_ifs <;> simp_all

/-- C4 witness: with `--time 2`, two positional arguments and both files
opening, the driver returns 0. -/
theorem exit_codes_witness : mainExit [Opt.time 2] 2 true true = 0 :=
  (exit_codes [Opt.time 2] 2 true true).2.2 rfl rfl rfl rfl rfl

/-- C5: the time ratio starts at 1; each `--time X` multiplies it by X and
records that a ratio option was given; each `--tempo X` with X nonzero
divides it by X, and any `--tempo` records that a ratio option was given. -/
theorem time_tempo_ratio (s : DriverState) (x : ℚ) :
    initState.ratio = 1 ∧
    (applyOpt s (Opt.time x)).ratio = s.ratio * x ∧
    (applyOpt s (Opt.time x)).haveRatio = true ∧
    (x ≠ 0 → (applyOpt s (Opt.tempo x)).ratio = s.ratio / x) ∧
    (applyOpt s (Opt.tempo x)).haveRatio = true := by
  refine ⟨rfl, rfl, rfl, fun hx => ?_, rfl⟩
  simp [applyOpt, hx]

/-- C5 witness: dividing by a concrete nonzero tempo. -/
theorem time_tempo_ratio_witness :
    (applyOpt initState (Opt.tempo 2)).ratio = initState.ratio / 2 :=
  (time_tempo_ratio initState 2).2.2.2.1 (by norm_num)

/-- C10: `--tempo 0` leaves the time ratio unchanged (the division is
skipped) yet still marks a ratio option as given, so the program proceeds
(exit 0 with two positional arguments and open files) instead of a usage
error. -/
theorem tempo_zero_no_divide (L : List Opt) :
    (applyOpt (parseOpts L) (Opt.tempo 0)).ratio = (parseOpts L).ratio ∧
    (applyOpt (parseOpts L) (Opt.tempo 0)).haveRatio = true ∧
    mainExit [Opt.tempo 0] 2 true true = 0 := by
  refine ⟨by simp [applyOpt], rfl, by decide⟩

/-- C3: the code contradicts its documented behaviour at `--pitch 1`.
`pitchshift` is initialised to 1.0 and the conversion at lines 269-271 is
guarded by `pitchshift != 1.0`, so a one-semitone shift is silently
dropped: the ratio passed to the constructor stays 1, while the documented
value `1 * 2^(1/12)` differs from 1. -/
theorem pitch_one_semitone_dropped :
    stretcherFrequencyRatio (parseOpts [Opt.pitch 1]) = 1 ∧
    (1 : ℝ) * (2 : ℝ) ^ ((1 : ℝ) / 12) ≠ 1 := by
  constructor
  · have hp : (parseOpts [Opt.pitch 1]).pitchshift = 1 := rfl
    have hf : (parseOpts [Opt.pitch 1]).frequencyshift = 1 := rfl
    simp [stretcherFrequencyRatio, hp, hf]
  · rw [one_mul]
    have h1 : (1 : ℝ) < (2 : ℝ) ^ ((1 : ℝ) / 12) :=
      (Real.one_lt_rpow_iff_of_pos (by norm_num)).mpr
        (Or.inl ⟨by norm_num, by norm_num⟩)
    exact ne_of_gt h1

/-- For any semitone value other than 1 the driver does convert as the spec
says: the passed ratio is the `--frequency` value times `2^(p/12)`. -/
theorem pitch_conversion_generic (L : List Opt) (p : ℚ) (hp : p ≠ 1) :
    stretcherFrequencyRatio (parseOpts (L ++ [Opt.pitch p])) =
      ((parseOpts (L ++ [Opt.pitch p])).frequencyshift : ℝ) *
        (2 : ℝ) ^ (((p : ℚ) : ℝ) / 12) := by
  have hps : (parseOpts (L ++ [Opt.pitch p])).pitchshift = p := by
    rw [parseOpts_concat]; rfl
  rw [stretcherFrequencyRatio, if_pos, hps]
  rw [hps]
  exact_mod_cast hp

/-- Witness for the generic conversion at `--pitch 2`. -/
theorem pitch_conversion_generic_witness :
    stretcherFrequencyRatio (parseOpts ([] ++ [Opt.pitch 2])) =
      ((parseOpts ([] ++ [Opt.pitch 2])).frequencyshift : ℝ) *
        (2 : ℝ) ^ ((((2 : ℚ)) : ℝ) / 12) :=
  pitch_conversion_generic [] 2 (by norm_num)

/-- C8: if the engine obeys the spec's duration law with tolerance `tol`,
then the driver's end-of-run error diagnostic (absolute difference between
`lrint(countIn * ratio)` and the retrieved total) is at most `tol + 1/2`;
conversely the true deviation from `countIn * ratio` is at most the
reported error plus 1/2, so the diagnostic is consistent with the law. -/
theorem duration_diagnostic (countIn countOut : ℕ) (ratio tol : ℚ)
    (h : DurationLaw countIn ratio countOut tol) :
    ((durationError countIn ratio countOut : ℤ) : ℚ) ≤ tol + 1 / 2 ∧
    |(countOut : ℚ) - (countIn : ℚ) * ratio| ≤
      ((durationError countIn ratio countOut : ℤ) : ℚ) + 1 / 2 := by
  unfold DurationLaw at h
  unfold durationError idealOutput
  have hr := abs_sub_round ((countIn : ℚ) * ratio)
  push_cast
  have t1 := abs_sub_le ((round ((countIn : ℚ) * ratio) : ℚ)) ((countIn : ℚ) * ratio)
    ((countOut : ℕ) : ℚ)
  have t2 := abs_sub_le (((countOut : ℕ) : ℚ)) ((round ((countIn : ℚ) * ratio) : ℚ))
    ((countIn : ℚ) * ratio)
  have e1 : |(round ((countIn : ℚ) * ratio) : ℚ) - (countIn : ℚ) * ratio| =
      |(countIn : ℚ) * ratio - (round ((countIn : ℚ) * ratio) : ℚ)| :=
    abs_sub_comm _ _
  have e2 : |(countIn : ℚ) * ratio - ((countOut : ℕ) : ℚ)| =
      |((countOut : ℕ) : ℚ) - (countIn : ℚ) * ratio| :=
    abs_sub_comm _ _
  have e3 : |((countOut : ℕ) : ℚ) - (round ((countIn : ℚ) * ratio) : ℚ)| =
      |(round ((countIn : ℚ) * ratio) : ℚ) - ((countOut : ℕ) : ℚ)| :=
    abs_sub_comm _ _
  constructor <;> linarith

/-- C8 witness: 100 input frames at ratio 2 with 201 retrieved frames and
tolerance 1. -/
theorem duration_diagnostic_witness :
    ((durationError 100 2 201 : ℤ) : ℚ) ≤ 1 + 1 / 2 ∧
    |((201 : ℕ) : ℚ) - ((100 : ℕ) : ℚ) * 2| ≤
      ((durationError 100 2 201 : ℤ) : ℚ) + 1 / 2 :=
  duration_diagnostic 100 201 2 1 (by norm_num [DurationLaw])

/-- Clamped samples always lie in [-1, 1]. -/
theorem clampSample_mem (v : ℚ) : -1 ≤ clampSample v ∧ clampSample v ≤ 1 := by
  unfold clampSample
  dsimp only
  split_ifs <;> constructor <;> linarith

/-- C9: every entry of the interleaved buffer passed to the file writer (in
the processing loop and in the drain loop alike) is a clamped retrieved
sample and lies in [-1, 1]; the clamp replaces values above 1 by 1, values
below -1 by -1, and keeps in-range values unchanged. -/
theorem written_samples_clamped (v : ℚ) (channels avail : ℕ)
    (obf : ℕ → ℕ → ℚ) (x : ℚ) (hx : x ∈ writeBuffer channels avail obf) :
    ((-1 ≤ x ∧ x ≤ 1) ∧ ∃ c i, x = clampSample (obf c i)) ∧
    (1 < v → clampSample v = 1) ∧
    (v < -1 → clampSample v = -1) ∧
    (-1 ≤ v → v ≤ 1 → clampSample v = v) := by
  obtain ⟨j, -, rfl⟩ := List.mem_map.mp hx
  refine ⟨⟨clampSample_mem _, ⟨_, _, rfl⟩⟩, fun hv => ?_, fun hv => ?_, fun hl hh => ?_⟩
  · simp only [clampSample, if_pos hv]
    norm_num
  · have hv1 : ¬ (1 : ℚ) < v := by linarith
    simp only [clampSample, if_neg hv1, if_pos hv]
  · have hv1 : ¬ (1 : ℚ) < v := by linarith
    have hv2 : ¬ v < (-1 : ℚ) := by linarith
    simp only [clampSample, if_neg hv1, if_neg hv2]

/-- C9 witness: the buffer for a one-channel, one-frame retrieved block
holding the out-of-range sample 2 contains exactly the clamped value 1. -/
theorem written_samples_clamped_witness :
    ((-1 ≤ (1 : ℚ) ∧ (1 : ℚ) ≤ 1) ∧
      ∃ _c _i : ℕ, (1 : ℚ) = clampSample 2) ∧
    ((1 : ℚ) < 2 → clampSample 2 = 1) ∧
    ((2 : ℚ) < -1 → clampSample 2 = -1) ∧
    (-1 ≤ (2 : ℚ) → (2 : ℚ) ≤ 1 → clampSample 2 = 2) :=
  written_samples_clamped 2 1 1 (fun _ _ => 2) 1 (by decide)

/-- Every event the study loop emits is a `study` call. -/
theorem studyPass_all_study (F frame : ℕ) :
    (studyPass F frame).all Event.isStudy = true := by
  rw [studyPass]
  split_ifs with h
  · have ih := studyPass_all_study F (frame + ibs)
    simp [Event.isStudy, ih]
  · rfl
termination_by F - frame
decreasing_by simp only [ibs]; omega

/-- Every event the processing loop emits is a `process` call. -/
theorem processPass_no_study (F frame : ℕ) :
    (processPass F frame).all (fun e => !e.isStudy) = true := by
  rw [processPass]
  split_ifs with h
  · have ih := processPass_no_study F (frame + ibs)
    rw [List.all_cons, ih]
    rfl
  · rfl
termination_by F - frame
decreasing_by simp only [ibs]; omega

/-- The study loop feeds exactly the frames from `frame` to the end of the
file. -/
theorem studyPass_sum (F frame : ℕ) :
    sumCounts (studyPass F frame) = F - frame := by
  rw [studyPass]
  split_ifs with h
  · have ih := studyPass_sum F (frame + ibs)
    simp only [sumCounts, List.map_cons, List.sum_cons, Event.frameCount] at ih ⊢
    rw [ih]
    simp only [ibs] at *
    omega
  · simp only [sumCounts, List.map_nil, List.sum_nil]
    omega
termination_by F - frame
decreasing_by simp only [ibs]; omega

/-- For a non-empty remainder of the file, the study loop's trace consists
of `study` calls with `final = false` followed by one last `study` call
with `final = true`. -/
theorem studyPass_final_structure (F frame : ℕ) (h : frame < F) :
    ∃ l c, studyPass F frame = l ++ [Event.study c true] ∧
      l.all (fun e => e.isStudy && !e.finalFlag) = true := by
  by_cases hf : F ≤ frame + ibs
  · have htail : studyPass F (frame + ibs) = [] := by
      rw [studyPass]
      exact dif_neg (by omega)
    refine ⟨[], min ibs (F - frame), ?_, rfl⟩
    rw [studyPass, dif_pos h, htail, decide_eq_true hf]
    rfl
  · obtain ⟨l, c, hl, hall⟩ := studyPass_final_structure F (frame + ibs) (by omega)
    refine ⟨Event.study (min ibs (F - frame)) false :: l, c, ?_, ?_⟩
    · rw [studyPass, dif_pos h, decide_eq_false hf, hl]
      rfl
    · rw [List.all_cons, hall]
      rfl
termination_by F - frame
decreasing_by simp only [ibs]; omega

/-- C6: in real-time mode the driver's trace contains no `study` call; in
offline mode the trace is the whole study loop followed by the whole
processing loop (so no `study` occurs after processing begins), the study
loop feeds all `F` input frames, and — for a non-empty input — it passes
`final = true` exactly on the last block, the one that reaches the input
frame count. -/
theorem study_strictly_before_process (F : ℕ) :
    (driverTrace true F).all (fun e => !e.isStudy) = true ∧
    driverTrace false F = studyPass F 0 ++ processPass F 0 ∧
    (studyPass F 0).all Event.isStudy = true ∧
    (processPass F 0).all (fun e => !e.isStudy) = true ∧
    sumCounts (studyPass F 0) = F ∧
    (0 < F → ∃ l c, studyPass F 0 = l ++ [Event.study c true] ∧
      l.all (fun e => e.isStudy && !e.finalFlag) = true) := by
  refine ⟨?_, rfl, studyPass_all_study F 0, processPass_no_study F 0, ?_,
    fun hF => studyPass_final_structure F 0 hF⟩
  · simp only [driverTrace, if_pos, List.nil_append]
    exact processPass_no_study F 0
  · simpa using studyPass_sum F 0

/-- C6 witness: a 2048-frame input, where the study pass is two blocks, the
second of which carries `final = true`. -/
theorem study_strictly_before_process_witness :
    ∃ l c, studyPass 2048 0 = l ++ [Event.study c true] ∧
      l.all (fun e => e.isStudy && !e.finalFlag) = true :=
  (study_strictly_before_process 2048).2.2.2.2.2 (by norm_num)

/-- The drain loop, run with enough fuel, performs exactly one iteration per
poll until the first negative `available()` value: a retrieve when the value
is positive, a sleep when it is zero, and it exits at the negative value. -/
theorem drainLoop_exact (a : ℕ → ℤ) :
    ∀ n k fuel, (∀ i, i < n → 0 ≤ a (k + i)) → a (k + n) < 0 → n < fuel →
      drainLoop a k fuel =
        (List.range n).map (fun i =>
          if 0 < a (k + i) then DrainStep.retrieveStep (a (k + i)).toNat
          else DrainStep.sleepStep) := by
  intro n
  induction n with
  | zero =>
      intro k fuel _ hneg hfuel
      cases fuel with
      | zero => omega
      | succ m =>
          simp only [Nat.add_zero] at hneg
          simp only [drainLoop, if_neg (not_le.mpr hneg), List.range_zero,
            List.map_nil]
  | succ n ih =>
      intro k fuel hpos hneg hfuel
      cases fuel with
      | zero => omega
      | succ m =>
          have h0 : 0 ≤ a k := by simpa using hpos 0 (Nat.succ_pos n)
          have htail : drainLoop a (k + 1) m =
              (List.range n).map (fun i =>
                if 0 < a ((k + 1) + i) then DrainStep.retrieveStep (a ((k + 1) + i)).toNat
                else DrainStep.sleepStep) := by
            refine ih (k + 1) m (fun i hi => ?_) ?_ (by omega)
            · have := hpos (i + 1) (by omega)
              have he : k + (i + 1) = (k + 1) + i := by omega
              rwa [he] at this
            · have he : k + (n + 1) = (k + 1) + n := by omega
              rwa [he] at hneg
          rw [List.range_succ_eq_map]
          simp only [drainLoop, if_pos h0, List.map_cons, List.map_map, htail]
          congr 1
          congr 1
          funext i
          have he : (k + 1) + i = k + (i + 1) := by omega
          simp [Function.comp, he]

/-- C7: if some poll of `available()` returns a negative value (the terminal
sentinel the spec guarantees after `final=true` input is drained), then the
drain loop terminates: there is a first poll `N0` returning a negative
value, every earlier poll is non-negative, and for every sufficient fuel
the loop runs exactly `N0` iterations — retrieving whenever the value is
positive and sleeping when it is zero — and exits at poll `N0`. -/
theorem drain_loop_terminates (a : ℕ → ℤ) (N : ℕ) (hN : a N < 0) :
    ∃ N0, N0 ≤ N ∧ a N0 < 0 ∧ (∀ i, i < N0 → 0 ≤ a i) ∧
      ∀ fuel, N < fuel →
        drainLoop a 0 fuel =
          (List.range N0).map (fun i =>
            if 0 < a i then DrainStep.retrieveStep (a i).toNat
            else DrainStep.sleepStep) := by
  have hex : ∃ n, a n < 0 := ⟨N, hN⟩
  have hle : Nat.find hex ≤ N := Nat.find_min' hex hN
  refine ⟨Nat.find hex, hle, Nat.find_spec hex, ?_, ?_⟩
  · intro i hi
    exact not_lt.mp (Nat.find_min hex hi)
  · intro fuel hfuel
    have := drainLoop_exact a (Nat.find hex) 0 fuel
      (fun i hi => by simpa using not_lt.mp (Nat.find_min hex hi))
      (by simpa using Nat.find_spec hex) (by omega)
    simpa using this

/-- C7 witness: a poll sequence that returns 1, then 0, then the terminal
sentinel -1; the loop retrieves once, sleeps once, and exits. -/
theorem drain_loop_terminates_witness :
    ∃ N0, N0 ≤ 2 ∧ (fun n => if n = 0 then (1 : ℤ) else if n = 1 then 0 else -1) N0 < 0 ∧
      (∀ i, i < N0 → 0 ≤ (fun n => if n = 0 then (1 : ℤ) else if n = 1 then 0 else -1) i) ∧
      ∀ fuel, 2 < fuel →
        drainLoop (fun n => if n = 0 then (1 : ℤ) else if n = 1 then 0 else -1) 0 fuel =
          (List.range N0).map (fun i =>
            if 0 < (fun n => if n = 0 then (1 : ℤ) else if n = 1 then 0 else -1) i then
              DrainStep.retrieveStep
                ((fun n => if n = 0 then (1 : ℤ) else if n = 1 then 0 else -1) i).toNat
            else DrainStep.sleepStep) :=
  drain_loop_terminates (fun n => if n = 0 then (1 : ℤ) else if n = 1 then 0 else -1) 2
    (by norm_num)

end RubberBand
